import Mathlib

/-!
Shallow embedding of `quiz2json.py`, the quiz-to-JSON converter.

Conventions of the embedding:
* Python strings are Lean `String`s; character-level operations work on
  `String.data` (a `List Char`) so that every definition reduces in the kernel.
  Python `str.strip`, `str.split(" ")`, `str.lower`, substring `in`, and
  `str.index` are re-implemented below over `List Char` (ASCII behaviour, which
  is what the tool processes; the Python versions additionally handle non-ASCII
  classes, irrelevant to the claims checked here).
* Python `int(...)` on a string is modelled by `pyInt?`, which succeeds exactly
  on an optionally signed non-empty digit string after stripping, and returns
  `none` where Python raises `ValueError`.
* PDF geometry: a line's left margin `x0` is a float in the source; only its
  ordering is consumed by the code, so it is modelled as an `Int`.
* Fallible Python code (uncaught `ValueError` / `IndexError` / `TypeError`
  aborting the run) is modelled with `Option`: `none` means the whole
  conversion raises.
* The highlight answer strategy (`get_answer_on_highlight`) guards on at
  least three characters in source code, then renders a page region to a PNG
  via the external PDF layer and inspects its palette; only the external
  rendering-and-palette step is an oracle parameter
  `hl : List CharRec → Bool`, while the length guard is modelled.
* The option regex is compiled from its parts unescaped (lines 110-111): the
  separator ")" raises `re.error` at `Configs` construction (unbalanced
  parenthesis), the separator "." compiles to the any-character wildcard
  (which does not match a newline), and the `numbers` identifier is the
  literal pattern `d+` (runs of the letter d). `OSepPat` and
  `optionStartsWith` model the compiled matcher, `compileOptionSep` its
  construction. The question regex, by contrast, is escaped by the
  space-replacement trick of line 108 and always compiles for the allowed
  inputs.
-/

namespace Quiz2Json

/-- Python truthiness of an optional int field (`None` and `0` are falsy). -/
def pyTruthyInt : Option Int → Bool
  | none => false
  | some n => n != 0

/-- Python truthiness of an optional string field (`None` and `""` are falsy). -/
def pyTruthyStr : Option String → Bool
  | none => false
  | some s => s != ""

/-- Python `str.strip()` (ASCII whitespace). -/
def pyStrip (s : String) : String :=
  String.mk (((s.data.dropWhile Char.isWhitespace).reverse.dropWhile Char.isWhitespace).reverse)

/-- Value of a non-empty all-digit character list, as Python `int` reads it. -/
def digitsVal (l : List Char) : Option Nat :=
  if l ≠ [] ∧ l.all Char.isDigit then
    some (l.foldl (fun n c => 10 * n + (c.toNat - 48)) 0)
  else none

/-- Python `int(s)`: strip, then an optionally signed non-empty digit string;
`none` models the `ValueError` Python raises otherwise. -/
def pyInt? (s : String) : Option Int :=
  match (pyStrip s).data with
  | [] => none
  | c :: cs =>
    if c = '-' then (digitsVal cs).map (fun n : Nat => -(n : Int))
    else if c = '+' then (digitsVal cs).map (fun n : Nat => (n : Int))
    else (digitsVal (c :: cs)).map (fun n : Nat => (n : Int))

/-- Python `str.split(sep)` for a single-character separator: splits at every
occurrence, keeping empty fields (`accRev` is the reversed current field). -/
def pySplit (sep : Char) : List Char → List Char → List (List Char)
  | accRev, [] => [accRev.reverse]
  | accRev, c :: cs =>
    if c = sep then accRev.reverse :: pySplit sep [] cs
    else pySplit sep (c :: accRev) cs

/-- First index of substring `sub` in a character list (`i` is the running
offset); `none` models the `ValueError` of Python `str.index`. -/
def strIndexOfAux (sub : List Char) : List Char → Nat → Option Nat
  | [], i => if sub.isEmpty then some i else none
  | c :: cs, i => if sub.isPrefixOf (c :: cs) then some i else strIndexOfAux sub cs (i + 1)

/-- Python `s.index(sub)`. -/
def strIndexOf? (s sub : String) : Option Nat :=
  strIndexOfAux sub.data s.data 0

/-- Python substring test `sub in hay`. -/
def containsSub : List Char → List Char → Bool
  | sub, [] => sub.isEmpty
  | sub, c :: cs => sub.isPrefixOf (c :: cs) || containsSub sub cs

/-- Python `str.lower()` (ASCII). -/
def pyLower (s : String) : String :=
  String.mk (s.data.map Char.toLower)

/-- Line classification tags of `LineType.line_type`: question start,
option start, continuation. -/
inductive LType
  | Q
  | O
  | C
deriving DecidableEq

/-- One character record of `line_raw["chars"]`; only the font name is
consumed by the bold answer strategy. -/
structure CharRec where
  fontname : String
deriving DecidableEq

/-- One extracted text line as supplied by `page.extract_text_lines()`:
text, left margin `x0`, and the character records. -/
structure PyLine where
  text : String
  x0 : Int
  chars : List CharRec
deriving DecidableEq

/-- The `LineType` objects pushed on `line_type_stack` in `convert`. -/
structure LineSpan where
  ltype : LType
  text : String
  chars : List CharRec
deriving DecidableEq

/-- Option identifier alphabets of `_allowed_option_identifiers`. -/
inductive OptIdent
  | lowercase_letters
  | uppercase_letters
  | ticks
  | numbers
deriving DecidableEq

/-- The anchored question regex `\d+<sep>\s` built in `Configs.__post_init__`
(the only question identifier alphabet is `numbers`, i.e. `\d+`), applied via
`regex_startswith`. -/
def questionStartsWith (qsep : String) (s : String) : Bool :=
  let ds := s.data.takeWhile Char.isDigit
  let rest := s.data.dropWhile Char.isDigit
  !ds.isEmpty && qsep.data.isPrefixOf rest &&
    (match rest.drop qsep.data.length with
     | w :: _ => w.isWhitespace
     | [] => false)

/-- The compiled form of the option separator inside the option regex. The
separator is interpolated unescaped (line 110-111), so of the allowed
separators only two compile: "." becomes the any-character wildcard and ""
the empty pattern; ")" raises `re.error` (see `compileOptionSep`). -/
inductive OSepPat
  | wildcard
  | empty
deriving DecidableEq

/-- The tail `<sep>\s` of the compiled option pattern, after the identifier
has consumed its characters: the wildcard consumes one arbitrary character
other than a newline, the empty separator consumes none; then `\s` must
match one whitespace character. -/
def matchSepWs : OSepPat → List Char → Bool
  | .wildcard, c :: w :: _ => decide (c ≠ '\n') && w.isWhitespace
  | .wildcard, _ => false
  | .empty, w :: _ => w.isWhitespace
  | .empty, [] => false

/-- The `numbers` option identifier is the literal, unescaped pattern `d+`
(the dict at line 103 stores the string without a backslash): one or more
literal d characters, with the backtracking choice of how many of them the
`+` consumes before the separator. -/
def matchDPlusAux (sep : OSepPat) : List Char → Bool
  | c :: rest =>
    if c = 'd' then matchSepWs sep rest || matchDPlusAux sep rest else false
  | [] => false

/-- The anchored option regex `<ident><sep>\s` compiled in
`Configs.__post_init__` (line 110-111), applied via `regex_startswith`: the
character classes `[a-z]`/`[A-Z]` and the tick `-` consume one character,
`numbers` is the literal `d+`. -/
def optionStartsWith (oident : OptIdent) (osep : OSepPat) (s : String) : Bool :=
  match oident, s.data with
  | .numbers, cs => matchDPlusAux osep cs
  | .lowercase_letters, c :: rest => decide ('a' ≤ c ∧ c ≤ 'z') && matchSepWs osep rest
  | .uppercase_letters, c :: rest => decide ('A' ≤ c ∧ c ≤ 'Z') && matchSepWs osep rest
  | .ticks, c :: rest => decide (c = '-') && matchSepWs osep rest
  | _, [] => false

/-- One iteration of the line classification loop of `convert` (lines
211-231): returns the span pushed on `line_type_stack` (if any) and the
updated `trash_x_threshold`. The outer `none` models the `IndexError` of
`line_text[0]` (line 227) on an empty line beyond the threshold, which
aborts the run. -/
def classifyStep (qsep : String) (oident : OptIdent) (osep : OSepPat)
    (th : Option Int) (l : PyLine) : Option (Option LineSpan × Option Int) :=
  if questionStartsWith qsep l.text then
    some (some ⟨.Q, l.text, l.chars⟩, if th = none then some l.x0 else th)
  else if optionStartsWith oident osep l.text then
    some (some ⟨.O, l.text, l.chars⟩, th)
  else
    match th with
    | none => some (none, none)
    | some t =>
      if l.x0 > t then
        match l.text.data with
        | [] => none
        | c :: _ => some (some ⟨if c.isAlphanum then .C else .O, l.text, l.chars⟩, some t)
      else some (none, some t)

/-- The classification loop over all extracted lines (pages concatenated in
order), threading `trash_x_threshold`. -/
def classifyGo (qsep : String) (oident : OptIdent) (osep : OSepPat) :
    Option Int → List PyLine → Option (List LineSpan)
  | _, [] => some []
  | th, l :: ls =>
    match classifyStep qsep oident osep th l with
    | none => none
    | some (none, th') => classifyGo qsep oident osep th' ls
    | some (some sp, th') => (classifyGo qsep oident osep th' ls).map (fun r => sp :: r)

/-- `line_type_stack` produced by the first phase of `convert`
(`trash_x_threshold` starts as `None`). -/
def classifyLines (qsep : String) (oident : OptIdent) (osep : OSepPat)
    (lines : List PyLine) : Option (List LineSpan) :=
  classifyGo qsep oident osep none lines

/-- The `Question` dataclass. `single_options` is the insertion-ordered dict
as an association list. -/
structure Question where
  question_number : Option Int := none
  question_body : Option String := none
  options : List String := []
  answer_idx_container : List Int := [-1]
  answer_str_container : List String := []
  single_options : List (String × String) := []
deriving DecidableEq

/-- `Question()` with its dataclass defaults (note the `[-1]` sentinel). -/
def newQuestion : Question := {}

/-- `Question.is_ready`. The Python method mutates
`answer_idx_container` (removing one `-1` when
`drop_questions_without_correct_answer` is set) before testing truthiness of
the required fields, so the model returns the updated question together with
the boolean. -/
def Question.is_ready (q : Question) (dropNoAnswer dropNoOptions : Bool) :
    Bool × Question :=
  let q1 :=
    if dropNoAnswer ∧ (-1 : Int) ∈ q.answer_idx_container then
      { q with answer_idx_container := q.answer_idx_container.erase (-1) }
    else q
  let checks :=
    [pyTruthyInt q1.question_number, pyTruthyStr q1.question_body]
      ++ (if dropNoAnswer then [!q1.answer_idx_container.isEmpty] else [])
      ++ (if dropNoOptions then [!q1.options.isEmpty] else [])
  (checks.all id, q1)

/-- Python list indexing `l[i]` (negative indices count from the end);
`none` models `IndexError`. -/
def pyIndex (l : List String) (i : Int) : Option String :=
  if 0 ≤ i then l.get? i.toNat
  else if i.natAbs ≤ l.length then l.get? (l.length - i.natAbs) else none

/-- `Question.populate_last_fields`. With no options it only prints a warning
and returns; otherwise it builds `single_options` and, when the index
container is non-empty, derives `answer_str_container` from the non-sentinel
indices (`none` models the `IndexError` of an out-of-range index). -/
def Question.populate_last_fields (q : Question) : Option Question :=
  if q.options.length = 0 then some q
  else
    let single := q.options.enum.map (fun p => ("option" ++ toString (p.1 + 1), p.2))
    let strs? :=
      if q.answer_idx_container.length > 0 then
        (q.answer_idx_container.filter (fun i => i != -1)).mapM (pyIndex q.options)
      else some q.answer_str_container
    match strs? with
    | none => none
    | some strs =>
      some { q with single_options := single, answer_str_container := strs }

/-- The minimized output shape of `Question.to_json`. -/
structure QuestionJson where
  question_number : Option Int
  question_body : Option String
  options : List String
  answer_idx_container : List Int
deriving DecidableEq

/-- `Question.to_json`: the minimized four-field dict, or the full `__dict__`
(modelled as the question itself). -/
def Question.to_json (minimize : Bool) (q : Question) : QuestionJson ⊕ Question :=
  if minimize then
    Sum.inl ⟨q.question_number, q.question_body, q.options, q.answer_idx_container⟩
  else Sum.inr q

/-- `get_answer_on_bold`: with at least two characters, test whether the
configured identifier occurs in the lower-cased font name of the character at
index 1; with fewer characters Python implicitly returns `None`. -/
def get_answer_on_bold (chars : List CharRec) (identifier : String) : Option Bool :=
  match chars with
  | _ :: c1 :: _ => some (containsSub identifier.data (pyLower c1.fontname).data)
  | _ => none

/-- `get_answer_on_highlight` (lines 166-179): with at least three
characters, render the page region around the character at index 2 and
inspect the palette of the resulting PNG — that external
rendering-and-palette step is the oracle `hl`; with fewer characters Python
implicitly returns `None`. -/
def get_answer_on_highlight (chars : List CharRec) (hl : List CharRec → Bool) :
    Option Bool :=
  if 3 ≤ chars.length then some (hl chars) else none

/-- The container update both branches of `detect_correct_answer` perform on a
positive verdict: `pop()` the last element when the `-1` sentinel is present,
then append `len(options) - 1`. -/
def appendCorrectIdx (q : Question) : Question :=
  let c :=
    if (-1 : Int) ∈ q.answer_idx_container then q.answer_idx_container.dropLast
    else q.answer_idx_container
  { q with answer_idx_container := c ++ [(q.options.length : Int) - 1] }

/-- `detect_correct_answer`: dispatch on the configured identifier; `hl` is
the oracle standing for the page rendering inside `get_answer_on_highlight`.
A `None`/`False` verdict leaves the question unchanged. -/
def detect_correct_answer (ident : String) (hl : List CharRec → Bool)
    (q : Question) (chars : List CharRec) : Question :=
  if ident = "bold" then
    if (get_answer_on_bold chars ident).getD false then appendCorrectIdx q else q
  else if ident = "highlight" then
    if (get_answer_on_highlight chars hl).getD false then appendCorrectIdx q else q
  else q

/-- The option text stored on an option line (line 258):
`' '.join(line_text[1:].split(" ")[1:])`. -/
def optionText (s : String) : String :=
  String.mk (List.intercalate [' '] ((pySplit ' ' [] (s.data.drop 1)).drop 1))

/-- Parsing of a question marker line (lines 251-254): find the first
occurrence of the separator, `int(...)` the stripped prefix, strip the suffix
after dropping one separator character; `none` models the uncaught
`ValueError`s of `str.index` and `int`. -/
def parseQuestionLine (qsep : String) (text : String) : Option (Int × String) :=
  match strIndexOf? text qsep with
  | none => none
  | some i =>
    match pyInt? (String.mk (text.data.take i)) with
    | none => none
    | some n => some (n, pyStrip (String.mk (text.data.drop (i + 1))))

/-- State of the question packing loop: emitted questions, the open question,
and the type of the previously processed span (used by continuation lookback;
initially `Q` because Python's `stack[idx - 1]` at `idx = 0` wraps to the
appended terminal question marker). -/
structure PackState where
  questions : List Question
  current : Question
  prev : LType
deriving DecidableEq

/-- Processing of a `Q` span (lines 244-254): finalize the open question if
ready (populate, renumber to its 1-based output position, append), then open
a new question from the parsed marker line. -/
def stepQ (dropA dropO : Bool) (qsep : String) (st : PackState) (text : String) :
    Option PackState :=
  match
    (if (st.current.is_ready dropA dropO).1 then
      match (st.current.is_ready dropA dropO).2.populate_last_fields with
      | none => none
      | some q2 =>
        some (st.questions ++
          [{ q2 with question_number := some ((st.questions.length : Int) + 1) }])
    else some st.questions) with
  | none => none
  | some qs =>
    match parseQuestionLine qsep text with
    | none => none
    | some nb =>
      some ⟨qs, { newQuestion with question_number := some nb.1,
                                   question_body := some nb.2 }, LType.Q⟩

/-- Processing of an `O` span (lines 256-261): append the extracted option
text and, when answer detection is on, run `detect_correct_answer`. -/
def stepO (find : Bool) (ident : String) (hl : List CharRec → Bool)
    (st : PackState) (text : String) (chars : List CharRec) : PackState :=
  let q := { st.current with options := st.current.options ++ [optionText text] }
  let q := if find then detect_correct_answer ident hl q chars else q
  ⟨st.questions, q, LType.O⟩

/-- Processing of a `C` span (lines 262-266): append the text to the last
option or the body according to the immediately preceding span type; after
another continuation there is no matching branch and the text is dropped.
`none` models the `IndexError`/`TypeError` of an empty option list or a
`None` body (unreachable from classified streams). -/
def stepC (st : PackState) (text : String) : Option PackState :=
  match st.prev with
  | .O =>
    match st.current.options.getLast? with
    | none => none
    | some last =>
      some ⟨st.questions,
        { st.current with
            options := st.current.options.dropLast ++ [last ++ " " ++ text] },
        LType.C⟩
  | .Q =>
    match st.current.question_body with
    | none => none
    | some b =>
      some ⟨st.questions,
        { st.current with question_body := some (b ++ " " ++ text) }, LType.C⟩
  | .C => some ⟨st.questions, st.current, LType.C⟩

/-- One iteration of the question packing loop. -/
def packStep (dropA dropO find : Bool) (ident qsep : String)
    (hl : List CharRec → Bool) (st : PackState) (l : LineSpan) : Option PackState :=
  match l.ltype with
  | .Q => stepQ dropA dropO qsep st l.text
  | .O => some (stepO find ident hl st l.text l.chars)
  | .C => stepC st l.text

/-- The packing loop over a span list. -/
def packGo (dropA dropO find : Bool) (ident qsep : String)
    (hl : List CharRec → Bool) : PackState → List LineSpan → Option PackState
  | st, [] => some st
  | st, l :: ls =>
    match packStep dropA dropO find ident qsep hl st l with
    | none => none
    | some st' => packGo dropA dropO find ident qsep hl st' ls

/-- The question packing phase of `convert` (lines 236-267): append the
terminal question marker `"-1<sep>"`, fold the packing step from an empty
state, and return the emitted questions. -/
def packQuestions (dropA dropO find : Bool) (ident qsep : String)
    (hl : List CharRec → Bool) (stack : List LineSpan) : Option (List Question) :=
  match packGo dropA dropO find ident qsep hl ⟨[], newQuestion, LType.Q⟩
      (stack ++ [⟨LType.Q, "-1" ++ qsep, []⟩]) with
  | none => none
  | some st => some st.questions

/-- The full `convert` pipeline: classify the extracted lines, pack them into
questions, serialize with `to_json`; `none` propagates an abort from either
phase. It receives an already constructed configuration, i.e. a compiled
option matcher (`OSepPat`). -/
def convert (dropA dropO find minimize : Bool) (ident qsep : String)
    (oident : OptIdent) (osep : OSepPat) (hl : List CharRec → Bool)
    (lines : List PyLine) : Option (List (QuestionJson ⊕ Question)) :=
  match classifyLines qsep oident osep lines with
  | none => none
  | some stack =>
    (packQuestions dropA dropO find ident qsep hl stack).map
      (List.map (Question.to_json minimize))

/-- The `Configs` dataclass fields (the compiled regexes are determined by the
identifier/separator fields and modelled by the matchers above). -/
structure Configs where
  find_correct_answer : Bool
  correct_answer_identifier : String
  drop_questions_without_correct_answer : Bool
  drop_questions_without_options : Bool
  question_identifier : String
  question_symbol_separator : String
  option_identifier : String
  option_symbol_separator : String
  minimize_json_size : Bool
deriving DecidableEq

/-- Keys of `_allowed_question_identifiers`. -/
def allowed_question_identifiers : List String := ["numbers"]

/-- `_allowed_question_symbol_separators`. -/
def allowed_question_symbol_separators : List String := [".", ")"]

/-- Keys of `_allowed_option_identifiers`. -/
def allowed_option_identifiers : List String :=
  ["lowercase_letters", "uppercase_letters", "ticks", "numbers"]

/-- `_allowed_option_symbol_separators`. -/
def allowed_option_symbol_separators : List String := [".", ")", ""]

/-- `Configs.validate_config`: `-1` error, `0` warning, `1` valid, with the
checks in source order (messages abridged). -/
def validate_config (c : Configs) : Int × String :=
  if c.find_correct_answer ∧ c.correct_answer_identifier = "" then
    (-1, "ERROR! Inconsistent parameters. Search correct answers is set but no correct answer identifier is given.")
  else if c.drop_questions_without_correct_answer ∧ ¬c.find_correct_answer then
    (-1, "ERROR! Inconsistent parameters. Discard if no correct answers is set but search correct answers is off.")
  else if c.question_identifier ∉ allowed_question_identifiers then
    (-1, "ERROR! not a valid question identifier.")
  else if c.question_symbol_separator ∉ allowed_question_symbol_separators then
    (-1, "ERROR! not a valid question symbol separator.")
  else if c.option_identifier ∉ allowed_option_identifiers then
    (-1, "ERROR! not a valid option identifier.")
  else if c.option_symbol_separator ∉ allowed_option_symbol_separators then
    (-1, "ERROR! not a valid option symbol separator.")
  else if ¬c.find_correct_answer ∧ c.correct_answer_identifier ≠ "" then
    (0, "WARNING! Inconsistent parameters. Correct answer identifier is given but search correct answers is off.")
  else (1, "")

/-- Compilation of the option matcher in `Configs.__post_init__` (lines
110-111): the separator is interpolated into the regex unescaped. Of the
allowed separators, "." compiles to the any-character wildcard, "" to the
empty pattern, and ")" raises `re.error` (unbalanced parenthesis) — a
`Configs` with option separator ")" cannot be constructed. Separators
outside `_allowed_option_symbol_separators` are not modelled (they are
rejected by `validate_config` and reached by no claim). -/
def compileOptionSep : String → Option OSepPat
  | "." => some OSepPat.wildcard
  | "" => some OSepPat.empty
  | ")" => none
  | _ => none

/-- Lookup of `_allowed_option_identifiers[self.option_identifier]` at
construction (line 111); a key outside the dict raises `KeyError` in
`__post_init__`. -/
def optIdentOf : String → Option OptIdent
  | "lowercase_letters" => some OptIdent.lowercase_letters
  | "uppercase_letters" => some OptIdent.uppercase_letters
  | "ticks" => some OptIdent.ticks
  | "numbers" => some OptIdent.numbers
  | _ => none

/-- Construction of a `Configs` object followed by `convert`:
`__post_init__` compiles both matchers at construction, raising `KeyError`
for an identifier outside the dicts (the only question identifier key is
"numbers") and `re.error` for the unescaped option separator ")"; in those
cases the program crashes before any parsing and nothing is serialized. -/
def constructAndConvert (c : Configs) (hl : List CharRec → Bool)
    (lines : List PyLine) : Option (List (QuestionJson ⊕ Question)) :=
  if c.question_identifier = "numbers" then
    match optIdentOf c.option_identifier, compileOptionSep c.option_symbol_separator with
    | some oident, some osep =>
      convert c.drop_questions_without_correct_answer c.drop_questions_without_options
        c.find_correct_answer c.minimize_json_size c.correct_answer_identifier
        c.question_symbol_separator oident osep hl lines
    | _, _ => none
  else none

/-- Modelled from the spec: the inconsistent configuration combinations the
specification documents for eager validation — answer detection requested
without a signal, and drop-without-correct-answer requested without answer
detection enabled. -/
def specDocumentedInconsistent (c : Configs) : Prop :=
  (c.find_correct_answer ∧ c.correct_answer_identifier = "") ∨
  (c.drop_questions_without_correct_answer ∧ ¬c.find_correct_answer)

/-- Modelled from the spec: the option-text extraction as the specification
words it — strip the leading marker character, then discard everything up to
and including the first whitespace run. -/
def specOptionText (s : String) : String :=
  String.mk (((s.data.drop 1).dropWhile (fun c => !c.isWhitespace)).dropWhile Char.isWhitespace)

/-- A finalized question is sentinel-free with in-range answer indices. -/
def EmittedGood (q : Question) : Prop :=
  (-1 : Int) ∉ q.answer_idx_container ∧
    ∀ i ∈ q.answer_idx_container, 0 ≤ i ∧ i < (q.options.length : Int)

/-- The index container of an open question is either exactly the `[-1]`
sentinel or sentinel-free with in-range indices. -/
def GoodContainer (q : Question) : Prop :=
  q.answer_idx_container = [-1] ∨ EmittedGood q

/-- Loop invariant of the packing phase: the open question has a good
container and every emitted question is sentinel-free with valid indices. -/
def PackInv (st : PackState) : Prop :=
  GoodContainer st.current ∧ ∀ q ∈ st.questions, EmittedGood q

/-- The emitted question numbers are exactly `1, 2, ...` in order. -/
def Numbered (l : List Question) : Prop :=
  l.map Question.question_number = (List.range l.length).map (fun i : Nat => some ((i : Int) + 1))

/-- The spec scenario input: four extracted lines at the same left margin. -/
def scenarioLines : List PyLine :=
  [⟨"1. What is 2+2?", 72, []⟩, ⟨"a) 3", 72, []⟩, ⟨"b) 4", 72, []⟩, ⟨"c) 5", 72, []⟩]

/-- Span stream for the C9 witness: two source questions numbered 5 and 3. -/
def c9WitnessStack : List LineSpan :=
  [⟨LType.Q, "5. a", []⟩, ⟨LType.O, "a) x", []⟩,
   ⟨LType.Q, "3. b", []⟩, ⟨LType.O, "b) y", []⟩]

/-- The packed questions of the C9 witness run. -/
def c9WitnessOut : List Question :=
  (packQuestions false false false "" "." (fun _ => false) c9WitnessStack).getD []

/-- Span stream for the C1 witness: bold detection marks the option via the
font name of its character at index 1. -/
def c1WitnessStack : List LineSpan :=
  [⟨LType.Q, "1. q", []⟩, ⟨LType.O, "a) x", [⟨"Arial"⟩, ⟨"Arial-BoldMT"⟩]⟩]

/-- The packed questions of the C1 witness run
(`drop_questions_without_correct_answer = true`). -/
def c1WitnessOut : List Question :=
  (packQuestions true false true "bold" "." (fun _ => false) c1WitnessStack).getD []

/-!
## Theorems
-/

/-- C1 (counterexample): the spec scenario configuration itself (option
separator ")") cannot be constructed — `re.error` in `__post_init__` — so no
question is finalized there at all; and with the constructible separator "."
(whose unescaped compilation is the wildcard, still matching the scenario
lines) a question does reach the serialized output carrying the internal
sentinel `-1` in its answer-index container — not the empty list the claim
states. -/
theorem c1_sentinel_leaks_counterexample :
    constructAndConvert
        ⟨false, "", false, true, "numbers", ".", "lowercase_letters", ")", true⟩
        (fun _ => false) scenarioLines = none ∧
    constructAndConvert
        ⟨false, "", false, true, "numbers", ".", "lowercase_letters", ".", true⟩
        (fun _ => false) scenarioLines
      = some [Sum.inl ⟨some 1, some "What is 2+2?", ["3", "4", "5"], [-1]⟩] ∧
    ([(-1 : Int)] : List Int) ≠ [] := by
  exact ⟨by decide, by decide, by decide⟩

/-- C2 (counterexample): `validate_config` rejects a configuration that is in
neither of the documented inconsistent combinations (its question identifier
is not in the allowed alphabet), so the rejected set is not the documented
combinations — the code has six error conditions, not four. -/
theorem c2_four_combinations_counterexample :
    (validate_config ⟨false, "", false, false, "letters", ".", "lowercase_letters", ")", true⟩).1
        = -1 ∧
    ¬ specDocumentedInconsistent
        ⟨false, "", false, false, "letters", ".", "lowercase_letters", ")", true⟩ := by
  refine ⟨by decide, ?_⟩
  unfold specDocumentedInconsistent
  decide

/-- C2 (amended): `validate_config` returns an error exactly for the six
conditions checked in source order — the two documented flag inconsistencies
plus the four membership checks on the identifier and separator fields. -/
theorem c2_validate_rejects_iff (c : Configs) :
    (validate_config c).1 = -1 ↔
      (c.find_correct_answer ∧ c.correct_answer_identifier = "") ∨
      (c.drop_questions_without_correct_answer ∧ ¬c.find_correct_answer) ∨
      c.question_identifier ∉ allowed_question_identifiers ∨
      c.question_symbol_separator ∉ allowed_question_symbol_separators ∨
      c.option_identifier ∉ allowed_option_identifiers ∨
      c.option_symbol_separator ∉ allowed_option_symbol_separators := by
  unfold validate_config
  split_ifs with h1 h2 h3 h4 h5 h6 h7 <;> simp_all

/-- C3 (counterexample): a question-start span whose number segment is not an
integer aborts the whole packing run (`none`): the later well-formed question
`"2. bar"` is not produced, contradicting the claim that only the malformed
question is dropped. -/
theorem c3_unparsable_number_counterexample :
    packQuestions false false false "" "." (fun _ => false)
        [⟨LType.Q, "x. foo", []⟩, ⟨LType.O, "a) 1", []⟩,
         ⟨LType.Q, "2. bar", []⟩, ⟨LType.O, "a) 2", []⟩]
      = none := by
  decide

/-- C4 (counterexample): for the marker line `"7. foo"` the parsed number is
7, but the question emitted for it carries number 1 — finalization overwrites
the number with the 1-based output position. -/
theorem c4_emitted_number_counterexample :
    parseQuestionLine "." "7. foo" = some (7, "foo") ∧
    (packQuestions false false false "" "." (fun _ => false)
          [⟨LType.Q, "7. foo", []⟩, ⟨LType.O, "a) x", []⟩]).map
        (List.map Question.question_number)
      = some [some 1] ∧
    (7 : Int) ≠ 1 := by
  exact ⟨by decide, by decide, by decide⟩

/-- C5 (counterexample): of two continuations chained after an option, only
the first is appended; the second (`"z"`) is silently lost, so the resulting
option is `"x y"` and not `"x y z"`. -/
theorem c5_chained_continuation_counterexample :
    (packQuestions false false false "" "." (fun _ => false)
          [⟨LType.Q, "1. a", []⟩, ⟨LType.O, "a) x", []⟩,
           ⟨LType.C, "y", []⟩, ⟨LType.C, "z", []⟩]).map
        (List.map Question.options)
      = some [["x y"]] ∧
    ("x y" : String) ≠ "x y z" := by
  exact ⟨by decide, by decide⟩

/-- C6: the bold strategy declares an option correct exactly when the line has
at least two characters and the identifier substring `"bold"` occurs in the
lower-cased font name of the character at index 1; with fewer than two
characters `get_answer_on_bold` makes no determination (`none`, treated as
not-correct by `detect_correct_answer`) and never fails. -/
theorem c6_bold_strategy :
    (∀ chars : List CharRec,
        ((get_answer_on_bold chars "bold").getD false = true ↔
          ∃ c0 c1 rest, chars = c0 :: c1 :: rest ∧
            containsSub "bold".data (pyLower c1.fontname).data = true)) ∧
    get_answer_on_bold [] "bold" = none ∧
    (∀ c0 : CharRec, get_answer_on_bold [c0] "bold" = none) := by
  refine ⟨?_, rfl, fun c0 => rfl⟩
  intro chars
  match chars with
  | [] => simp [get_answer_on_bold]
  | [c0] => simp [get_answer_on_bold]
  | c0 :: c1 :: rest =>
    simp only [get_answer_on_bold, Option.getD_some]
    constructor
    · intro h
      exact ⟨c0, c1, rest, rfl, h⟩
    · rintro ⟨d0, d1, drest, heq, hsub⟩
      cases heq
      exact hsub

/-- C7 (counterexample): under the constructible configuration with option
separator "." (compiled unescaped to the wildcard), the line `"a)  3"` (two
spaces after the marker) is classified OptionStart, and the code stores
`" 3"`, while discarding everything up to and including the first whitespace
run, as the claim states, would give `"3"`. -/
theorem c7_option_split_counterexample :
    compileOptionSep "." = some OSepPat.wildcard ∧
    optionStartsWith OptIdent.lowercase_letters OSepPat.wildcard "a)  3" = true ∧
    optionText "a)  3" = " 3" ∧
    specOptionText "a)  3" = "3" ∧
    (" 3" : String) ≠ "3" := by
  exact ⟨by decide, by decide, by decide, by decide, by decide⟩

/-- C7 (amended, scenario part): the configuration the spec's scenario names
(option separator ")") does not compile, so that exact run crashes at
construction; under the constructible separator "." — whose unescaped
wildcard still matches the scenario's option lines — the code splits each
option line on single space characters, drops the first field, and the
emitted question has body `"What is 2+2?"` and options `["3", "4", "5"]` in
source order. -/
theorem c7_scenario_body_options :
    compileOptionSep ")" = none ∧
    (classifyLines "." OptIdent.lowercase_letters OSepPat.wildcard scenarioLines).bind
        (fun stack => (packQuestions false true false "" "." (fun _ => false) stack).map
          (List.map (fun q => (q.question_body, q.options))))
      = some [(some "What is 2+2?", ["3", "4", "5"])] := by
  exact ⟨by decide, by decide⟩

/-- C8 (counterexample): under the constructible configuration with option
separator "." (compiled to the wildcard), a line matching the option pattern
before any question-start line is not discarded — it is emitted as an
OptionStart span even though the content threshold is still unset. -/
theorem c8_pre_question_option_counterexample :
    compileOptionSep "." = some OSepPat.wildcard ∧
    classifyLines "." OptIdent.lowercase_letters OSepPat.wildcard [⟨"a) 3", 10, []⟩]
      = some [⟨LType.O, "a) 3", []⟩] ∧
    some [(⟨LType.O, "a) 3", []⟩ : LineSpan)] ≠ some ([] : List LineSpan) := by
  exact ⟨by decide, by decide, by decide⟩

/-- C8 (amended): a line matching neither compiled pattern is discarded
while no threshold is set and discarded at or left of an established
threshold; beyond the threshold it is classified by its first character
(OptionStart when not alphanumeric, Continuation when alphanumeric), and an
empty such line aborts the run (`IndexError` at `line_text[0]`). -/
theorem c8_no_match_classification (qsep : String) (oident : OptIdent) (osep : OSepPat)
    (l : PyLine)
    (hq : questionStartsWith qsep l.text = false)
    (ho : optionStartsWith oident osep l.text = false) :
    classifyStep qsep oident osep none l = some (none, none) ∧
    (∀ t : Int, l.x0 ≤ t →
      classifyStep qsep oident osep (some t) l = some (none, some t)) ∧
    (∀ (t : Int) (c : Char) (rest : List Char), t < l.x0 → l.text.data = c :: rest →
      classifyStep qsep oident osep (some t) l =
        some (some ⟨if c.isAlphanum then LType.C else LType.O, l.text, l.chars⟩,
          some t)) ∧
    (∀ t : Int, t < l.x0 → l.text.data = [] →
      classifyStep qsep oident osep (some t) l = none) := by
  refine ⟨?_, fun t ht => ?_, fun t c rest ht hc => ?_, fun t ht hc => ?_⟩
  · simp [classifyStep, hq, ho]
  · simp only [classifyStep, hq, ho, Bool.false_eq_true, if_false]
    rw [if_neg (by omega)]
  · simp only [classifyStep, hq, ho, Bool.false_eq_true, if_false]
    rw [if_pos (by omega), hc]
  · simp only [classifyStep, hq, ho, Bool.false_eq_true, if_false]
    rw [if_pos (by omega), hc]

/-- C8 (witness): a plain text line not exceeding the threshold is discarded
(option separator "." compiled to the wildcard). -/
theorem c8_no_match_classification_witness :
    questionStartsWith "." "hello" = false ∧
    optionStartsWith OptIdent.lowercase_letters OSepPat.wildcard "hello" = false ∧
    classifyStep "." OptIdent.lowercase_letters OSepPat.wildcard (some 40)
        ⟨"hello", 30, []⟩
      = some (none, some 40) :=
  ⟨by decide, by decide,
    (c8_no_match_classification "." OptIdent.lowercase_letters OSepPat.wildcard
      ⟨"hello", 30, []⟩ (by decide) (by decide)).2.1 40 (by decide)⟩

/-- C5 (amended): a continuation appends to the question body when the
immediately preceding span is a QuestionStart, to the last option when it is
an OptionStart, and is silently discarded (state unchanged) when it follows
another continuation. -/
theorem c5_continuation_targets (st : PackState) (t : String) :
    (st.prev = LType.C → stepC st t = some st) ∧
    (∀ b, st.prev = LType.Q → st.current.question_body = some b →
      stepC st t = some ⟨st.questions,
        { st.current with question_body := some (b ++ " " ++ t) }, LType.C⟩) ∧
    (∀ lastOpt, st.prev = LType.O → st.current.options.getLast? = some lastOpt →
      stepC st t = some ⟨st.questions,
        { st.current with
            options := st.current.options.dropLast ++ [lastOpt ++ " " ++ t] },
        LType.C⟩) := by
  obtain ⟨qs, cur, prev⟩ := st
  refine ⟨?_, ?_, ?_⟩
  · rintro rfl
    rfl
  · rintro b rfl hb
    have hb' : cur.question_body = some b := hb
    simp [stepC, hb']
  · rintro lastOpt rfl hlast
    have hlast' : cur.options.getLast? = some lastOpt := hlast
    simp [stepC, hlast']

/-- C5 (witness): a continuation after a continuation leaves the packing
state unchanged. -/
theorem c5_continuation_targets_witness :
    (⟨[], newQuestion, LType.C⟩ : PackState).prev = LType.C ∧
    stepC ⟨[], newQuestion, LType.C⟩ "z" = some ⟨[], newQuestion, LType.C⟩ :=
  ⟨rfl, (c5_continuation_targets ⟨[], newQuestion, LType.C⟩ "z").1 rfl⟩

/-- C4 (amended): a question-start span opens a question whose number is the
integer parsed from the stripped segment before the first separator
occurrence and whose body is the trimmed segment after it (the emitted number
is later overwritten with the 1-based output position, see the C4
counterexample and C9). -/
theorem c4_open_question_number_body (dropA dropO : Bool) (qsep : String)
    (st st' : PackState) (text : String) (n : Int) (b : String)
    (hp : parseQuestionLine qsep text = some (n, b))
    (h : stepQ dropA dropO qsep st text = some st') :
    st'.current.question_number = some n ∧ st'.current.question_body = some b := by
  unfold stepQ at h
  split at h
  · exact absurd h (by simp)
  · rw [hp] at h
    injection h with h2
    subst h2
    exact ⟨rfl, rfl⟩

/-- C4 (witness): opening a question from `"7. foo"`. -/
theorem c4_open_question_number_body_witness :
    parseQuestionLine "." "7. foo" = some (7, "foo") ∧
    ((⟨[], { newQuestion with question_number := some 7, question_body := some "foo" },
        LType.Q⟩ : PackState).current.question_number = some 7 ∧
     (⟨[], { newQuestion with question_number := some 7, question_body := some "foo" },
        LType.Q⟩ : PackState).current.question_body = some "foo") :=
  ⟨by decide,
   c4_open_question_number_body false false "." ⟨[], newQuestion, LType.Q⟩ _ "7. foo" 7 "foo"
     (by decide) (by decide)⟩

/-- Readiness tests Python truthiness: a question number `0` or an empty body
fails the `all(...)` check even though the field is present. -/
theorem is_ready_false_of_untruthy (q : Question) (dA dO : Bool)
    (h : q.question_number = some 0 ∨ q.question_body = some "") :
    (q.is_ready dA dO).1 = false := by
  unfold Question.is_ready
  rcases h with h | h <;> split <;> simp [pyTruthyInt, pyTruthyStr, h]

/-- A question that fails readiness is not appended to the output. -/
theorem stepQ_questions_of_not_ready (dA dO : Bool) (qsep : String)
    (st st' : PackState) (text : String)
    (hr : (st.current.is_ready dA dO).1 = false)
    (h : stepQ dA dO qsep st text = some st') :
    st'.questions = st.questions := by
  unfold stepQ at h
  rw [hr] at h
  simp only [Bool.false_eq_true, if_false] at h
  split at h
  · exact absurd h (by simp)
  · injection h with h2
    subst h2
    rfl

/-- C10: readiness tests truthiness, not non-nullness — a parsed number `0`
or an empty body makes `is_ready` false, and on the next question marker such
an open question is silently dropped (the output list is unchanged). -/
theorem c10_truthiness_readiness :
    (∀ (q : Question) (dA dO : Bool),
        q.question_number = some 0 ∨ q.question_body = some "" →
        (q.is_ready dA dO).1 = false) ∧
    (∀ (dA dO : Bool) (qsep : String) (st st' : PackState) (text : String),
        st.current.question_number = some 0 ∨ st.current.question_body = some "" →
        stepQ dA dO qsep st text = some st' →
        st'.questions = st.questions) := by
  refine ⟨is_ready_false_of_untruthy, ?_⟩
  intro dA dO qsep st st' text h hstep
  exact stepQ_questions_of_not_ready dA dO qsep st st' text
    (is_ready_false_of_untruthy st.current dA dO h) hstep

/-- C10 (witness): a question with number `0` and a non-empty body fails
readiness. -/
theorem c10_truthiness_readiness_witness :
    ({ newQuestion with question_number := some 0, question_body := some "x" }
        : Question).question_number = some 0 ∧
    (({ newQuestion with question_number := some 0, question_body := some "x" }
        : Question).is_ready false false).1 = false :=
  ⟨rfl, c10_truthiness_readiness.1 _ false false (Or.inl rfl)⟩

/-- Option spans never touch the emitted question list. -/
theorem stepO_questions (find : Bool) (ident : String) (hl : List CharRec → Bool)
    (st : PackState) (text : String) (chars : List CharRec) :
    (stepO find ident hl st text chars).questions = st.questions := rfl

/-- Continuation spans never touch the emitted question list. -/
theorem stepC_questions (st st' : PackState) (text : String)
    (h : stepC st text = some st') : st'.questions = st.questions := by
  unfold stepC at h
  split at h
  · split at h
    · exact absurd h (by simp)
    · injection h with h2
      subst h2
      rfl
  · split at h
    · exact absurd h (by simp)
    · injection h with h2
      subst h2
      rfl
  · injection h with h2
    subst h2
    rfl

/-- A question marker either leaves the output unchanged (open question not
ready) or appends one question renumbered to its 1-based output position. -/
theorem stepQ_questions_shape (dA dO : Bool) (qsep : String)
    (st st' : PackState) (text : String)
    (h : stepQ dA dO qsep st text = some st') :
    st'.questions = st.questions ∨
    ∃ q2 : Question, st'.questions =
      st.questions ++
        [{ q2 with question_number := some ((st.questions.length : Int) + 1) }] := by
  unfold stepQ at h
  split at h
  · exact absurd h (by simp)
  case _ qs heq =>
    split at h
    · exact absurd h (by simp)
    · injection h with h2
      subst h2
      split at heq
      · split at heq
        · exact absurd heq (by simp)
        case _ q2 hpop =>
          injection heq with h3
          subst h3
          exact Or.inr ⟨q2, rfl⟩
      · injection heq with h3
        subst h3
        exact Or.inl rfl

/-- Appending a question numbered `length + 1` preserves sequentiality. -/
theorem numbered_push (l : List Question) (q : Question) (h : Numbered l)
    (hq : q.question_number = some ((l.length : Int) + 1)) : Numbered (l ++ [q]) := by
  unfold Numbered at h ⊢
  simp only [List.map_append, List.length_append, List.map_cons, List.map_nil,
    List.length_cons, List.length_nil, Nat.add_zero]
  rw [List.range_succ, List.map_append, h, hq]
  simp

/-- The packing loop preserves sequential numbering of the output list. -/
theorem packGo_numbered (dA dO find : Bool) (ident qsep : String)
    (hl : List CharRec → Bool) :
    ∀ (ls : List LineSpan) (st st' : PackState),
      Numbered st.questions →
      packGo dA dO find ident qsep hl st ls = some st' →
      Numbered st'.questions := by
  intro ls
  induction ls with
  | nil =>
    intro st st' hn h
    injection h with h2
    subst h2
    exact hn
  | cons l ls ih =>
    intro st st' hn h
    unfold packGo at h
    split at h
    · exact absurd h (by simp)
    case _ st1 hstep =>
      refine ih st1 st' ?_ h
      unfold packStep at hstep
      split at hstep
      · rcases stepQ_questions_shape _ _ _ _ _ _ hstep with hsame | ⟨q2, happ⟩
        · rw [hsame]
          exact hn
        · rw [happ]
          exact numbered_push _ _ hn rfl
      · injection hstep with h2
        subst h2
        rw [stepO_questions]
        exact hn
      · rw [stepC_questions _ _ _ hstep]
        exact hn

/-- C9: for every run of the packing phase that succeeds, the emitted
question numbers are exactly `1, 2, ..., N` in output order — each finalized
question is renumbered with its 1-based position, regardless of the numbers
parsed from the source markers. -/
theorem c9_output_numbers_sequential (dA dO find : Bool) (ident qsep : String)
    (hl : List CharRec → Bool) (stack : List LineSpan) (qs : List Question)
    (h : packQuestions dA dO find ident qsep hl stack = some qs) :
    qs.map Question.question_number
      = (List.range qs.length).map (fun i : Nat => some ((i : Int) + 1)) := by
  unfold packQuestions at h
  split at h
  · exact absurd h (by simp)
  case _ st hgo =>
    injection h with h2
    subst h2
    exact packGo_numbered dA dO find ident qsep hl
      (stack ++ [⟨LType.Q, "-1" ++ qsep, []⟩]) ⟨[], newQuestion, LType.Q⟩ st (by rfl) hgo

/-- C9 (witness): source markers numbered 5 and 3 come out numbered 1, 2. -/
theorem c9_output_numbers_sequential_witness :
    packQuestions false false false "" "." (fun _ => false) c9WitnessStack
      = some c9WitnessOut ∧
    c9WitnessOut.map Question.question_number
      = (List.range c9WitnessOut.length).map (fun i : Nat => some ((i : Int) + 1)) :=
  ⟨rfl, c9_output_numbers_sequential false false false "" "." (fun _ => false)
    c9WitnessStack c9WitnessOut rfl⟩

/-- Validity of finalized indices depends only on the container and the
options list. -/
theorem emittedGood_congr (a b : Question)
    (hc : b.answer_idx_container = a.answer_idx_container)
    (ho : b.options = a.options) (h : EmittedGood a) : EmittedGood b := by
  unfold EmittedGood at *
  rw [hc, ho]
  exact h

/-- Appending an option preserves the container invariant. -/
theorem goodContainer_push_option (q : Question) (o : String) (h : GoodContainer q) :
    GoodContainer { q with options := q.options ++ [o] } := by
  rcases h with hc | ⟨h1, h2⟩
  · exact Or.inl hc
  · refine Or.inr ⟨h1, fun i hi => ⟨(h2 i hi).1, ?_⟩⟩
    have hb := (h2 i hi).2
    simp only [List.length_append, List.length_cons, List.length_nil]
    push_cast
    omega

/-- A positive answer verdict keeps the container invariant: the sentinel is
popped (if present) and the appended index is the last option's, which is in
range. -/
theorem goodContainer_appendCorrectIdx (q : Question) (h : GoodContainer q)
    (h0 : q.options ≠ []) : GoodContainer (appendCorrectIdx q) := by
  have hlen : 0 < q.options.length := List.length_pos.mpr h0
  unfold appendCorrectIdx GoodContainer EmittedGood
  dsimp only
  rcases h with hc | ⟨h1, h2⟩
  · rw [hc, if_pos (show (-1 : Int) ∈ [(-1 : Int)] by simp)]
    simp only [List.dropLast_single, List.nil_append]
    refine Or.inr ⟨?_, ?_⟩
    · rw [List.mem_singleton]
      omega
    · intro i hi
      rw [List.mem_singleton] at hi
      subst hi
      constructor <;> omega
  · rw [if_neg h1]
    refine Or.inr ⟨?_, ?_⟩
    · intro hmem
      rcases List.mem_append.mp hmem with hm | hm
      · exact h1 hm
      · rw [List.mem_singleton] at hm
        omega
    · intro i hi
      rcases List.mem_append.mp hi with hm | hm
      · exact ⟨(h2 i hm).1, (h2 i hm).2⟩
      · rw [List.mem_singleton] at hm
        subst hm
        constructor <;> omega

/-- `detect_correct_answer` preserves the container invariant in every
branch. -/
theorem goodContainer_detect (ident : String) (hl : List CharRec → Bool)
    (q : Question) (chars : List CharRec) (h : GoodContainer q)
    (h0 : q.options ≠ []) :
    GoodContainer (detect_correct_answer ident hl q chars) := by
  unfold detect_correct_answer
  split_ifs <;> first
    | exact h
    | exact goodContainer_appendCorrectIdx q h h0

/-- With `drop_questions_without_correct_answer = true`, the question
returned by `is_ready` is sentinel-free with valid indices, and its options
are unchanged. -/
theorem emittedGood_is_ready_snd (q : Question) (dO : Bool) (h : GoodContainer q) :
    EmittedGood ((q.is_ready true dO).2) ∧ ((q.is_ready true dO).2).options = q.options := by
  unfold Question.is_ready
  dsimp only
  split
  case isTrue hcond =>
    rcases h with hc | ⟨h1, h2⟩
    · refine ⟨⟨?_, ?_⟩, rfl⟩
      · show (-1 : Int) ∉ q.answer_idx_container.erase (-1)
        rw [hc]
        decide
      · intro i hi
        rw [show ({ q with answer_idx_container := q.answer_idx_container.erase (-1)
            } : Question).answer_idx_container = q.answer_idx_container.erase (-1) from rfl,
          hc] at hi
        simp at hi
    · exact absurd hcond.2 h1
  case isFalse hcond =>
    rcases h with hc | hEG
    · exact absurd ⟨rfl, by rw [hc]; simp⟩ hcond
    · exact ⟨hEG, rfl⟩

/-- `populate_last_fields` never changes the container or the options. -/
theorem populate_preserves (q q' : Question)
    (h : q.populate_last_fields = some q') :
    q'.answer_idx_container = q.answer_idx_container ∧ q'.options = q.options := by
  unfold Question.populate_last_fields at h
  split at h
  · injection h with h2
    subst h2
    exact ⟨rfl, rfl⟩
  · dsimp only at h
    split at h
    · exact absurd h (by simp)
    · injection h with h2
      subst h2
      exact ⟨rfl, rfl⟩

/-- A question marker preserves the packing invariant
(`drop_questions_without_correct_answer = true`). -/
theorem packInv_stepQ (dO : Bool) (qsep : String) (st st' : PackState)
    (text : String) (hinv : PackInv st)
    (h : stepQ true dO qsep st text = some st') : PackInv st' := by
  unfold stepQ at h
  split at h
  · exact absurd h (by simp)
  case _ qs heq =>
    split at h
    · exact absurd h (by simp)
    · injection h with h2
      subst h2
      refine ⟨Or.inl rfl, ?_⟩
      split at heq
      case isTrue hready =>
        split at heq
        · exact absurd heq (by simp)
        case _ q2 hpop =>
          injection heq with h3
          subst h3
          intro q hq
          rcases List.mem_append.mp hq with hq | hq
          · exact hinv.2 q hq
          · rw [List.mem_singleton] at hq
            subst hq
            have hg := (emittedGood_is_ready_snd st.current dO hinv.1).1
            have hp := populate_preserves _ _ hpop
            exact emittedGood_congr _ _ hp.1 hp.2 hg
      case isFalse =>
        injection heq with h3
        subst h3
        exact hinv.2
  --

/-- An option span preserves the packing invariant. -/
theorem packInv_stepO (find : Bool) (ident : String) (hl : List CharRec → Bool)
    (st : PackState) (text : String) (chars : List CharRec) (hinv : PackInv st) :
    PackInv (stepO find ident hl st text chars) := by
  unfold stepO
  dsimp only
  have h1 : GoodContainer
      { st.current with options := st.current.options ++ [optionText text] } :=
    goodContainer_push_option _ _ hinv.1
  refine ⟨?_, hinv.2⟩
  split
  · exact goodContainer_detect _ _ _ _ h1 (by simp)
  · exact h1

/-- Rewriting the last option in place keeps the option count, hence the
container invariant. -/
theorem goodContainer_mod_last (q : Question) (x : String) (h : GoodContainer q)
    (h0 : q.options ≠ []) :
    GoodContainer { q with options := q.options.dropLast ++ [x] } := by
  have hlen : 0 < q.options.length := List.length_pos.mpr h0
  rcases h with hc | ⟨h1, h2⟩
  · exact Or.inl hc
  · refine Or.inr ⟨h1, fun i hi => ⟨(h2 i hi).1, ?_⟩⟩
    have hb := (h2 i hi).2
    simp only [List.length_append, List.length_dropLast, List.length_cons,
      List.length_nil]
    push_cast
    omega

/-- A continuation span preserves the packing invariant. -/
theorem packInv_stepC (st st' : PackState) (text : String)
    (hinv : PackInv st) (h : stepC st text = some st') : PackInv st' := by
  unfold stepC at h
  split at h
  · split at h
    · exact absurd h (by simp)
    case _ last hlast =>
      injection h with h2
      subst h2
      refine ⟨?_, hinv.2⟩
      refine goodContainer_mod_last _ _ hinv.1 ?_
      intro he
      rw [he] at hlast
      simp at hlast
  · split at h
    · exact absurd h (by simp)
    · injection h with h2
      subst h2
      exact ⟨hinv.1, hinv.2⟩
  · injection h with h2
    subst h2
    exact ⟨hinv.1, hinv.2⟩

/-- One packing step preserves the invariant
(`drop_questions_without_correct_answer = true`). -/
theorem packInv_packStep (dO find : Bool) (ident qsep : String)
    (hl : List CharRec → Bool) (st st' : PackState) (l : LineSpan)
    (hinv : PackInv st)
    (h : packStep true dO find ident qsep hl st l = some st') : PackInv st' := by
  unfold packStep at h
  split at h
  · exact packInv_stepQ dO qsep st st' _ hinv h
  · injection h with h2
    subst h2
    exact packInv_stepO find ident hl st _ _ hinv
  · exact packInv_stepC st st' _ hinv h

/-- The packing loop preserves the invariant
(`drop_questions_without_correct_answer = true`). -/
theorem packInv_packGo (dO find : Bool) (ident qsep : String)
    (hl : List CharRec → Bool) :
    ∀ (ls : List LineSpan) (st st' : PackState), PackInv st →
      packGo true dO find ident qsep hl st ls = some st' → PackInv st' := by
  intro ls
  induction ls with
  | nil =>
    intro st st' hinv h
    injection h with h2
    subst h2
    exact hinv
  | cons l ls ih =>
    intro st st' hinv h
    unfold packGo at h
    split at h
    · exact absurd h (by simp)
    case _ st1 hstep =>
      exact ih st1 st' (packInv_packStep dO find ident qsep hl st st1 l hinv hstep) h

/-- C1 (amended): with `drop_questions_without_correct_answer = true` every
question that reaches the output is sentinel-free and all its answer indices
are valid indices into its options (for any detection oracle); with the flag
false the sentinel leaks into the output, see the C1 counterexample. -/
theorem c1_finalized_indices_valid_when_dropping (dO find : Bool)
    (ident qsep : String) (hl : List CharRec → Bool)
    (stack : List LineSpan) (qs : List Question)
    (h : packQuestions true dO find ident qsep hl stack = some qs) :
    ∀ q ∈ qs, (-1 : Int) ∉ q.answer_idx_container ∧
      ∀ i ∈ q.answer_idx_container, 0 ≤ i ∧ i < (q.options.length : Int) := by
  unfold packQuestions at h
  split at h
  · exact absurd h (by simp)
  case _ st hgo =>
    injection h with h2
    subst h2
    have hfin := packInv_packGo dO find ident qsep hl _ ⟨[], newQuestion, LType.Q⟩ st
      ⟨Or.inl rfl, by intro q hq; simp at hq⟩ hgo
    intro q hq
    exact hfin.2 q hq

/-- C1 (witness): a run with bold detection on and the drop flag set emits a
question whose container is `[0]` with one option. -/
theorem c1_finalized_indices_valid_witness :
    packQuestions true false true "bold" "." (fun _ => false) c1WitnessStack
      = some c1WitnessOut ∧
    (∀ q ∈ c1WitnessOut, (-1 : Int) ∉ q.answer_idx_container ∧
      ∀ i ∈ q.answer_idx_container, 0 ≤ i ∧ i < (q.options.length : Int)) :=
  ⟨rfl, c1_finalized_indices_valid_when_dropping false true "bold" "."
    (fun _ => false) c1WitnessStack c1WitnessOut rfl⟩

/-- A digit character is not whitespace. -/
theorem not_ws_of_digit (c : Char) (h : c.isDigit = true) : c.isWhitespace = false := by
  by_contra hws
  rw [Bool.not_eq_false] at hws
  have hcases : ((c = ' ' ∨ c = '\t') ∨ c = '\r') ∨ c = '\n' := by
    have : (c = ' ' || c = '\t' || c = '\r' || c = '\n') = true := hws
    simpa [Bool.or_eq_true, decide_eq_true_eq] using this
  rcases hcases with ((rfl | rfl) | rfl) | rfl <;> exact absurd h (by decide)

/-- A digit character is neither a minus nor a plus sign. -/
theorem digit_not_sign (c : Char) (h : c.isDigit = true) : ¬(c = '-') ∧ ¬(c = '+') := by
  constructor <;> intro he <;> subst he <;> exact absurd h (by decide)

/-- Stripping whitespace leaves an all-digit list unchanged (head check). -/
theorem dropWhile_ws_digits (ds : List Char) (hds : ∀ d ∈ ds, d.isDigit = true) :
    ds.dropWhile Char.isWhitespace = ds := by
  cases ds with
  | nil => rfl
  | cons d t =>
    rw [List.dropWhile_cons]
    rw [not_ws_of_digit d (hds d (List.mem_cons_self d t))]
    simp

/-- `pyStrip` leaves an all-digit string unchanged. -/
theorem pyStrip_digits (ds : List Char) (hds : ∀ d ∈ ds, d.isDigit = true) :
    (pyStrip (String.mk ds)).data = ds := by
  show ((ds.dropWhile Char.isWhitespace).reverse.dropWhile Char.isWhitespace).reverse = ds
  rw [dropWhile_ws_digits ds hds]
  rw [dropWhile_ws_digits ds.reverse (fun d hd => hds d (List.mem_reverse.mp hd))]
  exact List.reverse_reverse ds

/-- Python `int` succeeds on every non-empty all-digit string. -/
theorem pyInt_isSome_of_digits (ds : List Char) (hne : ds ≠ [])
    (hds : ∀ d ∈ ds, d.isDigit = true) :
    (pyInt? (String.mk ds)).isSome = true := by
  unfold pyInt?
  rw [pyStrip_digits ds hds]
  cases ds with
  | nil => exact absurd rfl hne
  | cons c cs =>
    have hc := hds c (List.mem_cons_self c cs)
    have hsign := digit_not_sign c hc
    dsimp only
    rw [if_neg hsign.1, if_neg hsign.2]
    unfold digitsVal
    rw [if_pos ⟨by simp, by rw [List.all_eq_true]; exact fun d hd => hds d hd⟩]
    simp

/-- In a list starting with digits followed by a non-digit separator, the
first occurrence of the separator is right after the digit run. -/
theorem strIndexOfAux_digits (sepc : Char) (hnd : sepc.isDigit = false) :
    ∀ (ds r : List Char) (i : Nat), (∀ d ∈ ds, d.isDigit = true) →
      strIndexOfAux [sepc] (ds ++ sepc :: r) i = some (i + ds.length) := by
  intro ds
  induction ds with
  | nil =>
    intro r i _
    rw [List.nil_append]
    simp only [strIndexOfAux]
    rw [if_pos (by simp [List.isPrefixOf])]
    simp
  | cons d ds ih =>
    intro r i hds
    have hd : d.isDigit = true := hds d (List.mem_cons_self d ds)
    have hne : sepc ≠ d := by
      intro he
      rw [he] at hnd
      rw [hd] at hnd
      exact absurd hnd (by decide)
    rw [List.cons_append]
    simp only [strIndexOfAux]
    rw [if_neg (by simp [List.isPrefixOf, hne])]
    rw [ih r (i + 1) (fun x hx => hds x (List.mem_cons_of_mem d hx))]
    rw [List.length_cons]
    congr 1
    omega

/-- Core of C3 (amended): a line matched by the question pattern built from a
one-character non-digit separator always has a parseable number segment. -/
theorem parse_of_questionStartsWith (sepc : Char) (qsep s : String)
    (hq : qsep.data = [sepc]) (hnd : sepc.isDigit = false)
    (hm : questionStartsWith qsep s = true) :
    (parseQuestionLine qsep s).isSome = true := by
  unfold questionStartsWith at hm
  rw [hq] at hm
  simp only [Bool.and_eq_true, Bool.not_eq_true'] at hm
  obtain ⟨⟨hne, hpre⟩, _⟩ := hm
  have hdigits : ∀ d ∈ s.data.takeWhile Char.isDigit, d.isDigit = true :=
    fun d hd => List.mem_takeWhile_imp hd
  have hrest : ∃ t, s.data.dropWhile Char.isDigit = sepc :: t := by
    cases hcase : s.data.dropWhile Char.isDigit with
    | nil =>
      rw [hcase] at hpre
      exact absurd hpre (by simp [List.isPrefixOf])
    | cons r t =>
      rw [hcase] at hpre
      have : (sepc == r && ([] : List Char).isPrefixOf t) = true := hpre
      simp only [List.isPrefixOf, Bool.and_true, beq_iff_eq] at this
      exact ⟨t, by rw [this]⟩
  obtain ⟨t, ht⟩ := hrest
  have hsdata : s.data = s.data.takeWhile Char.isDigit ++ sepc :: t := by
    conv_lhs => rw [← List.takeWhile_append_dropWhile Char.isDigit s.data]
    rw [ht]
  have hdne : s.data.takeWhile Char.isDigit ≠ [] := by
    intro he
    rw [he] at hne
    exact absurd hne (by decide)
  unfold parseQuestionLine strIndexOf?
  rw [hq, hsdata, strIndexOfAux_digits sepc hnd _ t 0 hdigits]
  dsimp only
  rw [Nat.zero_add, List.take_left]
  have hsome := pyInt_isSome_of_digits _ hdne hdigits
  cases hval : pyInt? (String.mk (s.data.takeWhile Char.isDigit)) with
  | none =>
    rw [hval] at hsome
    exact absurd hsome (by decide)
  | some n => simp [hval]

/-- C3 (amended): within the code, an unparsable question number aborts the
whole packing run (see the C3 counterexample), but every line the classifier
marks as a question start — for any allowed separator — has a digit-run
number segment that `int` always parses, so the abort is unreachable from
classified streams. -/
theorem c3_classified_question_numbers_parse (qsep s : String)
    (hsep : qsep ∈ allowed_question_symbol_separators)
    (hm : questionStartsWith qsep s = true) :
    (parseQuestionLine qsep s).isSome = true := by
  have : qsep = "." ∨ qsep = ")" := by
    simpa [allowed_question_symbol_separators] using hsep
  rcases this with rfl | rfl
  · exact parse_of_questionStartsWith '.' "." s rfl (by decide) hm
  · exact parse_of_questionStartsWith ')' ")" s rfl (by decide) hm

/-- C3 (witness): the classified question line `"1. ok"` parses. -/
theorem c3_classified_question_numbers_parse_witness :
    ("." ∈ allowed_question_symbol_separators) ∧
    questionStartsWith "." "1. ok" = true ∧
    (parseQuestionLine "." "1. ok").isSome = true :=
  ⟨by decide, by decide,
    c3_classified_question_numbers_parse "." "1. ok" (by decide) (by decide)⟩

end Quiz2Json
